import Mathlib

/-!
Verification development for the ticker-sentiment monitor (`src/main.py`,
class `TickerSentimentMonitor`).

Modelling conventions (shallow embedding):
* A Python string is modelled as a list of Unicode code points (`Text := List Nat`);
  `txt s` converts a Lean string literal.  `str.lower` / `str.upper` are modelled by
  the ASCII case maps `lowerChar` / `upperChar` applied pointwise (every string
  constant appearing in the source is ASCII).  Python's substring test `a in b`
  is list infix containment.
* Python dicts that the code builds and looks up by key are modelled as
  association lists with first-match lookup (`lookupT`); dict keys are unique in
  the source, so first-match lookup coincides with dict lookup.
* Python floats carry only arithmetic on scores here and are modelled as `ℚ`.
* Fallible collaborators (the FinBERT scorer) are modelled as functions into
  `Except`; `try/except` blocks become matches on the `Except` value.
-/

/-- A piece of text: the list of its character code points. -/
abbrev Text := List Nat

/-- Code points of a Lean string literal, for writing concrete Python strings. -/
def txt (s : String) : Text := s.data.map Char.toNat

/-- ASCII lower-casing of one code point (model of Python `str.lower` per character). -/
def lowerChar (c : Nat) : Nat := if 65 ≤ c ∧ c ≤ 90 then c + 32 else c

/-- ASCII upper-casing of one code point (model of Python `str.upper` per character). -/
def upperChar (c : Nat) : Nat := if 97 ≤ c ∧ c ≤ 122 then c - 32 else c

/-- Model of Python `text.lower()`. -/
def pyLower (t : Text) : Text := t.map lowerChar

/-- Model of Python `text.upper()`. -/
def pyUpper (t : Text) : Text := t.map upperChar

/-- Model of Python `needle in hay` for strings: substring containment, as a `Bool`. -/
def substr (needle hay : Text) : Bool := decide (needle <:+: hay)

/-- First-match association-list lookup, modelling Python dict lookup / `in` on keys. -/
def lookupT {α : Type} : List (Text × α) → Text → Option α
  | [], _ => none
  | (k, v) :: rest, key => if k = key then some v else lookupT rest key

/-- One entry of the hard-coded `false_positive_filters` table in `_validate_mention`
(`src/main.py` lines 77-90). -/
structure FPFilter where
  exclude_phrases : List Text
  require_context : List Text
deriving DecidableEq

/-- The hard-coded `false_positive_filters` dict of `_validate_mention`
(`src/main.py` lines 77-90), keyed by ticker. -/
def false_positive_filters : List (Text × FPFilter) :=
  [ (txt "OPEN",
     ⟨[txt "openai", txt "open ai", txt "open-ai", txt "open source"],
      [txt "opendoor", txt "real estate", txt "housing"]⟩),
    (txt "MSTR",
     ⟨[txt "armstrong", txt "arm strong"],
      [txt "microstrategy", txt "bitcoin", txt "saylor"]⟩),
    (txt "FIG",
     ⟨[txt "figure", txt "figures"],
      []⟩) ]

/-- Model of `TickerSentimentMonitor._validate_mention` (`src/main.py` lines 69-99):
lower-case the text; if the ticker has a filters entry, return `false` as soon as one
of its `exclude_phrases` occurs in the lowered text; otherwise return `true`.  The
`require_context` list is carried in the table but never consulted, exactly as in the
source.  The `name` argument is unused by the source logic and kept for fidelity. -/
def _validate_mention (text : Text) (name : Text) (ticker : Text) : Bool :=
  match lookupT false_positive_filters ticker with
  | some filters => filters.exclude_phrases.all (fun ex => !(substr ex (pyLower text)))
  | none => true

/-- The exclusion phrases the disambiguation table holds for a ticker
(empty when the ticker has no `false_positive_filters` entry). -/
def exclude_phrases_of (ticker : Text) : List Text :=
  match lookupT false_positive_filters ticker with
  | some filters => filters.exclude_phrases
  | none => []

/-- Model of `TickerSentimentMonitor.extract_tickers` (`src/main.py` lines 101-125).
The source loops over `self.watch_tickers` accumulating a set; we return the sublist
of the watch-list whose per-ticker match condition holds, so set membership in the
source corresponds to list membership here.  A ticker absent from
`self.ticker_to_names` uses the fallback bare-symbol test `ticker in text_upper`
and skips validation (`continue`); a ticker with an alias list is matched by the
first alias whose lower-casing occurs in the lowered text and which
`_validate_mention` accepts (`break` after the first confirmed alias is the
short-circuit of `List.any`). -/
def extract_tickers (watch : List Text) (table : List (Text × List Text)) (text : Text) :
    List Text :=
  watch.filter (fun ticker =>
    match lookupT table ticker with
    | none => substr ticker (pyUpper text)
    | some aliases =>
        aliases.any (fun name =>
          substr (pyLower name) (pyLower text) && _validate_mention text name ticker))

/-- The scorer collaborator: the tokenizer/FinBERT/softmax pipeline inside the `try`
block of `analyse_sentiment` (`src/main.py` lines 130-136), abstracted at its
interface.  On success it yields the raw polarity `positive_prob - negative_prob`;
any exception raised by it is an `Except.error` carrying the message. -/
abbrev Scorer := Text → Except String ℚ

/-- The threshold chain of `analyse_sentiment` (`src/main.py` lines 138-147) turning
a raw score into the per-text sentiment string. -/
def classify_score (score : ℚ) : String :=
  if score > 1/2 then "VERY BULLISH"
  else if score > 1/10 then "Bullish"
  else if score < -(1/2) then "VERY BEARISH"
  else if score < -(1/10) then "Bearish"
  else "Neutral"

/-- Model of `TickerSentimentMonitor.analyse_sentiment` (`src/main.py` lines 127-152):
truncate the text to 512 characters (`text[:512]`), run the scorer; on success return
the classified label with the score, and on any exception return `("Neutral", 0.0)`
(the blanket `except Exception` handler, line 151-152). -/
def analyse_sentiment (scorer : Scorer) (text : Text) : String × ℚ :=
  match scorer (text.take 512) with
  | Except.ok score => (classify_score score, score)
  | Except.error _ => ("Neutral", 0)

/-- An annotated article as built in `fetch_and_analyse_articles`
(`src/main.py` lines 198-207). -/
structure Article where
  title : Text
  link : Text
  published : Text
  summary : Text
  source : Text
  sentiment : String
  score : ℚ
  tickers : List Text
deriving DecidableEq

/-- A raw feed entry, as read from one `feed.entries` element
(`src/main.py` lines 186-189); the source label comes from the feed title. -/
structure RawItem where
  title : Text
  summary : Text
  link : Text
  published : Text
  source : Text
deriving DecidableEq

/-- The per-entry body of `fetch_and_analyse_articles` (`src/main.py` lines 186-209):
build `combined_text = f"{title} {summary}"`, extract mentioned tickers, analyse
sentiment, and assemble the annotated article dict. -/
def process_item (scorer : Scorer) (watch : List Text) (table : List (Text × List Text))
    (it : RawItem) : Article :=
  let combined := it.title ++ txt " " ++ it.summary
  let mentioned := extract_tickers watch table combined
  let sentiment_score := analyse_sentiment scorer combined
  { title := it.title
    link := it.link
    published := it.published
    summary := it.summary
    source := it.source
    sentiment := sentiment_score.1
    score := sentiment_score.2
    tickers := mentioned }

/-- The `ticker_articles` mapping returned by `fetch_and_analyse_articles`
(`src/main.py` lines 175, 211-213, 228): a `defaultdict(list)` that gains a key only
when some article mentions the ticker, converted to a plain dict on return.  Lookup
of a ticker yields `some` of its articles in input order when at least one article
mentions it, and `none` (key absent) otherwise. -/
def ticker_articles (all_articles : List Article) (ticker : Text) : Option (List Article) :=
  let hits := all_articles.filter (fun a => decide (ticker ∈ a.tickers))
  if hits.isEmpty then none else some hits

/-- The full batch step of `fetch_and_analyse_articles` over one list of raw entries
(`src/main.py` lines 174-228): every entry is processed independently and appended to
`all_articles`. -/
def fetch_and_analyse (scorer : Scorer) (watch : List Text)
    (table : List (Text × List Text)) (items : List RawItem) : List Article :=
  items.map (process_item scorer watch table)

/-- The mean score `sum(a['score'] for a in articles) / len(articles)` used by
`generate_html_report` for the overall block (line 235) and each ticker block
(line 390). -/
def avg_of (articles : List Article) : ℚ :=
  (articles.map Article.score).sum / articles.length

/-- A rendered summary block of `generate_html_report`: mean score, sentiment
string and colour. -/
structure SummaryView where
  avg : ℚ
  label : String
  color : String
deriving DecidableEq

/-- The overall-market block of `generate_html_report` (`src/main.py` lines 233-255):
on an empty article list, score 0 with the "No Data" sentinel; otherwise the mean
score classified by the 0.3 / 0 threshold chain. -/
def overall_summary (all_articles : List Article) : SummaryView :=
  if all_articles.isEmpty then ⟨0, "No Data", "#6c757d"⟩
  else
    let avg := avg_of all_articles
    if avg > 3/10 then ⟨avg, "🟢 BULLISH", "#28a745"⟩
    else if avg > 0 then ⟨avg, "🟢 Slightly Bullish", "#90EE90"⟩
    else if avg < -(3/10) then ⟨avg, "🔴 BEARISH", "#dc3545"⟩
    else if avg < 0 then ⟨avg, "🔴 Slightly Bearish", "#FFA07A"⟩
    else ⟨avg, "⚪ Neutral", "#6c757d"⟩

/-- The per-ticker threshold chain of `generate_html_report`
(`src/main.py` lines 392-406), applied to the ticker's mean score. -/
def ticker_sentiment (ticker_avg : ℚ) : SummaryView :=
  if ticker_avg > 3/10 then ⟨ticker_avg, "🟢 BULLISH", "#28a745"⟩
  else if ticker_avg > 0 then ⟨ticker_avg, "🟢 Slightly Bullish", "#90EE90"⟩
  else if ticker_avg < -(3/10) then ⟨ticker_avg, "🔴 BEARISH", "#dc3545"⟩
  else if ticker_avg < 0 then ⟨ticker_avg, "🔴 Slightly Bearish", "#FFA07A"⟩
  else ⟨ticker_avg, "⚪ Neutral", "#6c757d"⟩

/-- The per-ticker section head of `generate_html_report`
(`src/main.py` lines 380-406): with no articles for the ticker the source renders the
"No articles mentioning" fallback section (`none` here); otherwise the mean score and
its 0.3 / 0 classification. -/
def ticker_summary (articles : List Article) : Option SummaryView :=
  if articles.isEmpty then none
  else some (ticker_sentiment (avg_of articles))

/-- The absolute-score sort key `lambda x: abs(x['score'])`
(`src/main.py` line 422). -/
def absScore (a : Article) : ℚ := |a.score|

/-- Stable descending insertion: place `a` before the first element whose key does
not exceed `a`'s.  This is the elementary step of the stable descending sort that
models Python `sorted(articles, key=lambda x: abs(x['score']), reverse=True)`
(`src/main.py` line 422); CPython's sort is stable and `reverse=True` keeps
equal-key elements in input order. -/
def insert_desc (a : Article) : List Article → List Article
  | [] => [a]
  | b :: l => if absScore b ≤ absScore a then a :: b :: l else b :: insert_desc a l

/-- Stable descending sort by `absScore`, modelling line 422 of the source. -/
def sort_desc : List Article → List Article
  | [] => []
  | a :: l => insert_desc a (sort_desc l)

/-- The top-5 selection `sorted_articles[:5]` (`src/main.py` lines 422-424). -/
def select_top5 (articles : List Article) : List Article :=
  (sort_desc articles).take 5

/-- The result of parsing the ticker-mappings file in `load_ticker_mappings`
(`src/main.py` lines 52-67): the file may be absent (`FileNotFoundError`), malformed
(`json.JSONDecodeError`), or parse to a JSON object mapping tickers to entries whose
optional `aliases` field holds a list of alias strings (`info.get('aliases', [ticker])`
defaults only when the field itself is missing). -/
inductive MappingFile : Type
  | missing : MappingFile
  | malformed : MappingFile
  | ok : List (Text × Option (List Text)) → MappingFile

/-- Model of `TickerSentimentMonitor.load_ticker_mappings` (`src/main.py` lines 52-67):
on a parsed file, one entry per ticker of the file with `aliases` defaulted to
`[ticker]` when the field is absent; on a missing or malformed file, the identity
mapping over the watch-list. -/
def load_ticker_mappings (watch : List Text) (file : MappingFile) : List (Text × List Text) :=
  match file with
  | MappingFile.ok data => data.map (fun p => (p.1, p.2.getD [p.1]))
  | MappingFile.missing => watch.map (fun t => (t, [t]))
  | MappingFile.malformed => watch.map (fun t => (t, [t]))

/-- The constructor step `self.ticker_to_names = {ticker: names ... if ticker in
self.watch_tickers}` (`src/main.py` lines 29-32): the loaded mapping restricted to
watch-list tickers. -/
def init_table (watch : List Text) (file : MappingFile) : List (Text × List Text) :=
  (load_ticker_mappings watch file).filter (fun p => decide (p.1 ∈ watch))

/-- An article carrying only a score, for concrete instances. -/
def mkArticle (score : ℚ) : Article := ⟨[], [], [], [], [], "Neutral", score, []⟩

/-- A concrete feed entry whose text mentions AAPL by bare symbol and no other
watch-list ticker. -/
def itemApple : RawItem :=
  ⟨txt "Apple AAPL surges", txt "strong iPhone sales", txt "link1", txt "", txt "Feed"⟩

/-- A concrete feed entry whose text mentions TSLA by bare symbol. -/
def itemTesla : RawItem :=
  ⟨txt "Tesla TSLA slides", txt "delivery miss", txt "link2", txt "", txt "Feed"⟩

/-- A two-ticker watch-list for concrete instances. -/
def watchEx : List Text := [txt "AAPL", txt "TSLA"]

/-- A scorer that succeeds on every text with score 0.4. -/
def scorer_const : Scorer := fun _ => Except.ok (2/5)

/-- A scorer whose collaborator is entirely unavailable: every call raises. -/
def scorer_down : Scorer := fun _ => Except.error "scorer unavailable"

/-- The scorer with the substitution-on-failure rule of `analyse_sentiment` pushed
into it: every raising call is replaced by a successful score 0.  Used to state that
a failure is observationally identical to a scored 0. -/
def neutral_substituted (s : Scorer) : Scorer := fun t =>
  match s t with
  | Except.error _ => Except.ok 0
  | Except.ok q => Except.ok q

lemma substr_eq_true_iff (needle hay : Text) : substr needle hay = true ↔ needle <:+: hay := by
  simp [substr]

lemma lower_upper_char (c : Nat) : lowerChar (upperChar c) = lowerChar c := by
  unfold lowerChar upperChar
  split_ifs <;> omega

lemma upper_lower_char (c : Nat) : upperChar (lowerChar c) = upperChar c := by
  unfold lowerChar upperChar
  split_ifs <;> omega

lemma pyLower_pyUpper (t : Text) : pyLower (pyUpper t) = pyLower t := by
  induction t with
  | nil => rfl
  | cons c t ih =>
      simp only [pyLower, pyUpper, List.map_cons] at ih ⊢
      rw [lower_upper_char]
      exact congrArg _ ih

lemma pyUpper_pyLower (t : Text) : pyUpper (pyLower t) = pyUpper t := by
  induction t with
  | nil => rfl
  | cons c t ih =>
      simp only [pyLower, pyUpper, List.map_cons] at ih ⊢
      rw [upper_lower_char]
      exact congrArg _ ih

lemma part_map (f : Nat → Nat) {a b : Text} (h : a <:+: b) : a.map f <:+: b.map f := by
  obtain ⟨s, t, rfl⟩ := h
  exact ⟨s.map f, t.map f, by simp⟩

lemma upper_contained_iff (tk text : Text) (hu : pyUpper tk = tk) :
    tk <:+: pyUpper text ↔ pyLower tk <:+: pyLower text := by
  constructor
  · intro h
    have h2 : pyLower tk <:+: pyLower (pyUpper text) := part_map lowerChar h
    rwa [pyLower_pyUpper] at h2
  · intro h
    have h2 : pyUpper (pyLower tk) <:+: pyUpper (pyLower text) := part_map upperChar h
    rwa [pyUpper_pyLower, pyUpper_pyLower, hu] at h2

lemma validate_eq_true_iff (text name ticker : Text) :
    _validate_mention text name ticker = true ↔
      ∀ ex ∈ exclude_phrases_of ticker, ¬ ex <:+: pyLower text := by
  unfold _validate_mention exclude_phrases_of
  cases lookupT false_positive_filters ticker with
  | none => simp
  | some filters => simp [List.all_eq_true, substr]

lemma insert_desc_perm (a : Article) (l : List Article) :
    (insert_desc a l).Perm (a :: l) := by
  induction l with
  | nil => simp [insert_desc]
  | cons b l ih =>
      rw [insert_desc]
      split
      · exact List.Perm.refl _
      · exact (List.Perm.cons b ih).trans (List.Perm.swap a b l)

lemma sort_desc_perm (l : List Article) : (sort_desc l).Perm l := by
  induction l with
  | nil => simp [sort_desc]
  | cons a l ih =>
      rw [sort_desc]
      exact (insert_desc_perm a (sort_desc l)).trans (List.Perm.cons a ih)

lemma insert_desc_pairwise (a : Article) {l : List Article}
    (h : l.Pairwise fun x y => absScore y ≤ absScore x) :
    (insert_desc a l).Pairwise fun x y => absScore y ≤ absScore x := by
  induction l with
  | nil => simp [insert_desc]
  | cons b l ih =>
      rw [List.pairwise_cons] at h
      obtain ⟨hb, hl⟩ := h
      rw [insert_desc]
      split
      · rename_i hba
        refine List.pairwise_cons.mpr ⟨?_, List.pairwise_cons.mpr ⟨hb, hl⟩⟩
        intro y hy
        rcases List.mem_cons.mp hy with hyb | hyl
        · exact hyb ▸ hba
        · exact (hb y hyl).trans hba
      · rename_i hba
        refine List.pairwise_cons.mpr ⟨?_, ih hl⟩
        intro y hy
        have hy2 : y ∈ a :: l := (insert_desc_perm a l).mem_iff.mp hy
        rcases List.mem_cons.mp hy2 with hya | hyl
        · exact hya ▸ (not_le.mp hba).le
        · exact hb y hyl

lemma sort_desc_pairwise (l : List Article) :
    (sort_desc l).Pairwise fun x y => absScore y ≤ absScore x := by
  induction l with
  | nil => simp [sort_desc]
  | cons a l ih =>
      rw [sort_desc]
      exact insert_desc_pairwise a ih

lemma filter_insert_desc (a : Article) (q : ℚ) (l : List Article) :
    (insert_desc a l).filter (fun x => decide (absScore x = q)) =
      if absScore a = q
        then a :: l.filter (fun x => decide (absScore x = q))
        else l.filter (fun x => decide (absScore x = q)) := by
  induction l with
  | nil =>
      rw [insert_desc]
      by_cases haq : absScore a = q
      · simp [List.filter, haq]
      · simp [List.filter, haq]
  | cons b l ih =>
      rw [insert_desc]
      split
      · rename_i hba
        by_cases haq : absScore a = q
        · simp [List.filter_cons, haq]
        · simp [List.filter_cons, haq]
      · rename_i hba
        have hab : absScore a < absScore b := not_le.mp hba
        by_cases hbq : absScore b = q
        · have haq : ¬ absScore a = q := by
            intro haq
            rw [haq, hbq] at hab
            exact lt_irrefl q hab
          simp [List.filter_cons, hbq, haq, ih]
        · by_cases haq : absScore a = q
          · simp [List.filter_cons, hbq, haq, ih]
          · simp [List.filter_cons, hbq, haq, ih]

lemma sort_desc_stable (q : ℚ) (l : List Article) :
    (sort_desc l).filter (fun x => decide (absScore x = q)) =
      l.filter (fun x => decide (absScore x = q)) := by
  induction l with
  | nil => rfl
  | cons a l ih =>
      rw [sort_desc, filter_insert_desc, ih]
      by_cases haq : absScore a = q
      · simp [List.filter_cons, haq]
      · simp [List.filter_cons, haq]

lemma lookupT_filter {α : Type} (watch : List Text) (t : Text) (ht : t ∈ watch)
    (l : List (Text × α)) :
    lookupT (l.filter fun p => decide (p.1 ∈ watch)) t = lookupT l t := by
  induction l with
  | nil => rfl
  | cons kv l ih =>
      obtain ⟨k, v⟩ := kv
      by_cases hk : k ∈ watch
      · rw [List.filter_cons_of_pos (by simpa using hk)]
        simp [lookupT, ih]
      · rw [List.filter_cons_of_neg (by simpa using hk)]
        have hkt : ¬ k = t := by
          intro h
          rw [h] at hk
          exact hk ht
        simp [lookupT, hkt, ih]

lemma lookupT_map_val {α β : Type} (g : Text → α → β) (t : Text)
    (l : List (Text × α)) :
    lookupT (l.map fun p => (p.1, g p.1 p.2)) t = (lookupT l t).map (g t) := by
  induction l with
  | nil => rfl
  | cons kv l ih =>
      obtain ⟨k, v⟩ := kv
      by_cases hk : k = t
      · subst hk
        simp [lookupT]
      · simp [lookupT, hk, ih]

lemma lookupT_ident (t : Text) (watch : List Text) (ht : t ∈ watch) :
    lookupT (watch.map fun w => (w, [w])) t = some [t] := by
  induction watch with
  | nil => cases ht
  | cons w ws ih =>
      by_cases hw : w = t
      · subst hw
        simp [lookupT]
      · have hts : t ∈ ws := by
          rcases List.mem_cons.mp ht with h | h
          · exact absurd h.symm hw
          · exact h
        simp [lookupT, hw, ih hts]

/-- C1 (counterexample): the overall summary at mean 0.05 — the spec's own §8
end-to-end example, two articles with scores 0.4 and -0.3 — is labelled
"🟢 Slightly Bullish" by the 0.3 / 0 threshold chain of `generate_html_report`,
not NEUTRAL as the §4.3 table (0.5 / 0.1 thresholds) would give, refuting the
claim that aggregate means are classified via §4.3. -/
theorem C1_counterexample :
    avg_of [mkArticle (2/5), mkArticle (-(3/10))] = 1/20 ∧
    (overall_summary [mkArticle (2/5), mkArticle (-(3/10))]).label = "🟢 Slightly Bullish" ∧
    (overall_summary [mkArticle (2/5), mkArticle (-(3/10))]).label ≠ "⚪ Neutral" ∧
    ticker_sentiment (1/20) = ⟨1/20, "🟢 Slightly Bullish", "#90EE90"⟩ := by
  have hl : (overall_summary [mkArticle (2/5), mkArticle (-(3/10))]).label
      = "🟢 Slightly Bullish" := by
    norm_num [overall_summary, avg_of, mkArticle]
  refine ⟨by norm_num [avg_of, mkArticle], hl, ?_, by norm_num [ticker_sentiment]⟩
  rw [hl]
  decide

/-- C1 (amended): whenever the core derives a label from an aggregate mean it uses
the 0.3 / 0 threshold chain — identically in the overall block and the per-ticker
block of `generate_html_report` — with labels BULLISH / Slightly Bullish / BEARISH /
Slightly Bearish / Neutral; for a non-empty article list the overall summary equals
the per-ticker classification of the same mean, and the mean 0.05 is labelled
Slightly Bullish. -/
theorem C1_amended (arts : List Article) (h : arts ≠ []) :
    overall_summary arts = ticker_sentiment (avg_of arts) ∧
    ticker_summary arts = some (ticker_sentiment (avg_of arts)) ∧
    (ticker_sentiment (1/20)).label = "🟢 Slightly Bullish" := by
  have h2 : arts.isEmpty = false := by
    simpa [List.isEmpty_iff] using h
  refine ⟨?_, ?_, by norm_num [ticker_sentiment]⟩
  · rw [overall_summary, ticker_sentiment]
    simp [h2]
  · rw [ticker_summary]
    simp [h2]

/-- C1 (witness for the amended theorem), at the spec's two-article example. -/
theorem C1_amended_witness :
    overall_summary [mkArticle (2/5), mkArticle (-(3/10))]
        = ticker_sentiment (avg_of [mkArticle (2/5), mkArticle (-(3/10))]) ∧
    ticker_summary [mkArticle (2/5), mkArticle (-(3/10))]
        = some (ticker_sentiment (avg_of [mkArticle (2/5), mkArticle (-(3/10))])) ∧
    (ticker_sentiment (1/20)).label = "🟢 Slightly Bullish" :=
  C1_amended [mkArticle (2/5), mkArticle (-(3/10))] (by simp)

/-- C6: the overall summary of an empty article list is the score-0 "No Data"
sentinel, while a one-article list whose article scores 0.0 is labelled
"⚪ Neutral" — two distinct labels (`generate_html_report` lines 233-255). -/
theorem C6_empty_vs_zero (a : Article) (h : a.score = 0) :
    (overall_summary []).avg = 0 ∧
    (overall_summary []).label = "No Data" ∧
    (overall_summary [a]).label = "⚪ Neutral" ∧
    (overall_summary []).label ≠ (overall_summary [a]).label := by
  have h1 : (overall_summary []).avg = 0 := by norm_num [overall_summary]
  have h2 : (overall_summary []).label = "No Data" := by norm_num [overall_summary]
  have h3 : (overall_summary [a]).label = "⚪ Neutral" := by
    norm_num [overall_summary, avg_of, h]
  refine ⟨h1, h2, h3, ?_⟩
  rw [h2, h3]
  decide

/-- C6 (witness), at a concrete zero-score article. -/
theorem C6_witness :
    (overall_summary []).avg = 0 ∧
    (overall_summary []).label = "No Data" ∧
    (overall_summary [mkArticle 0]).label = "⚪ Neutral" ∧
    (overall_summary []).label ≠ (overall_summary [mkArticle 0]).label :=
  C6_empty_vs_zero (mkArticle 0) rfl

/-- C7: the presentation selection is the first five of the stable descending sort
by absolute score (`generate_html_report` lines 421-424): the sort is a permutation
of the input, pairwise sorted by non-increasing absolute score, and stable — for
every key value, the articles carrying that absolute score appear in input order —
and on a concrete pair with equal absolute scores (0.3 and -0.3) the earlier input
article stays first. -/
theorem C7_top5_stable :
    (∀ l : List Article, select_top5 l = (sort_desc l).take 5) ∧
    (∀ l : List Article, (sort_desc l).Perm l) ∧
    (∀ l : List Article, (sort_desc l).Pairwise fun x y => absScore y ≤ absScore x) ∧
    (∀ (l : List Article) (q : ℚ),
      (sort_desc l).filter (fun x => decide (absScore x = q)) =
        l.filter (fun x => decide (absScore x = q))) ∧
    select_top5 [mkArticle (3/10), mkArticle (-(3/10))]
      = [mkArticle (3/10), mkArticle (-(3/10))] := by
  refine ⟨fun l => rfl, sort_desc_perm, sort_desc_pairwise, fun l q => sort_desc_stable q l, ?_⟩
  norm_num [select_top5, sort_desc, insert_desc, absScore, mkArticle]

/-- C9 (counterexample): with a successfully parsed mapping file, a watch-list
ticker absent from the file has no alias entry at all after construction (the
invariant "every watch-list ticker has exactly one AliasSet" fails), and a ticker
whose file entry carries an explicitly empty `aliases` list keeps the empty list
(the non-emptiness invariant fails). -/
theorem C9_counterexample :
    txt "AAPL" ∈ [txt "AAPL"] ∧
    lookupT (init_table [txt "AAPL"] (MappingFile.ok [])) (txt "AAPL") = none ∧
    lookupT (init_table [txt "AAPL"] (MappingFile.ok [(txt "AAPL", some [])]))
        (txt "AAPL") = some [] := by
  exact ⟨by decide, by decide, by decide⟩

/-- C9 (amended): after construction, a missing or malformed mapping file gives
every watch-list ticker the singleton alias set; a parsed file gives a watch-list
ticker exactly the file's entry — defaulting to the singleton only when the entry's
`aliases` field is absent, kept verbatim (possibly empty) otherwise, and no entry at
all when the ticker is missing from the file (such tickers fall back to bare-symbol
matching in `extract_tickers`). -/
theorem C9_amended (watch : List Text) (data : List (Text × Option (List Text)))
    (t : Text) (ht : t ∈ watch) :
    lookupT (init_table watch MappingFile.missing) t = some [t] ∧
    lookupT (init_table watch MappingFile.malformed) t = some [t] ∧
    lookupT (init_table watch (MappingFile.ok data)) t
      = (lookupT data t).map (fun o => o.getD [t]) := by
  refine ⟨?_, ?_, ?_⟩
  · rw [init_table, load_ticker_mappings, lookupT_filter watch t ht, lookupT_ident t watch ht]
  · rw [init_table, load_ticker_mappings, lookupT_filter watch t ht, lookupT_ident t watch ht]
  · rw [init_table, load_ticker_mappings, lookupT_filter watch t ht]
    exact lookupT_map_val (fun k o => o.getD [k]) t data

/-- C9 (witness for the amended theorem), at a one-ticker watch-list whose file
entry lacks the `aliases` field. -/
theorem C9_amended_witness :
    lookupT (init_table [txt "OPEN"] MappingFile.missing) (txt "OPEN") = some [txt "OPEN"] ∧
    lookupT (init_table [txt "OPEN"] MappingFile.malformed) (txt "OPEN") = some [txt "OPEN"] ∧
    lookupT (init_table [txt "OPEN"] (MappingFile.ok [(txt "OPEN", none)])) (txt "OPEN")
      = (lookupT [(txt "OPEN", none)] (txt "OPEN")).map (fun o => o.getD [txt "OPEN"]) :=
  C9_amended [txt "OPEN"] [(txt "OPEN", none)] (txt "OPEN") (by decide)

/-- C2: for a watch-list ticker with an alias entry, `extract_tickers` reports the
ticker exactly when some alias, lower-cased, occurs in the lower-cased text and no
exclusion phrase of the ticker's entry in `false_positive_filters` occurs in the
lower-cased text.  The right side depends only on this ticker's own aliases and
exclusion phrases (the veto cannot affect any other ticker), never consults the
`require_context` lists, and one matching alias suffices. -/
theorem C2_alias_veto (watch : List Text) (table : List (Text × List Text))
    (text ticker : Text) (aliases : List Text)
    (hw : ticker ∈ watch) (ht : lookupT table ticker = some aliases) :
    ticker ∈ extract_tickers watch table text ↔
      ((∃ name ∈ aliases, pyLower name <:+: pyLower text) ∧
        ∀ ex ∈ exclude_phrases_of ticker, ¬ ex <:+: pyLower text) := by
  rw [extract_tickers, List.mem_filter]
  simp only [hw, true_and, ht, List.any_eq_true, Bool.and_eq_true, substr_eq_true_iff,
    validate_eq_true_iff]
  constructor
  · rintro ⟨name, hname, hin, hval⟩
    exact ⟨⟨name, hname, hin⟩, hval⟩
  · rintro ⟨⟨name, hname, hin⟩, hval⟩
    exact ⟨name, hname, hin, hval⟩

/-- C2 (witness): the spec's MSTR example — alias "microstrategy" matches the text
"MicroStrategy bought more bitcoin" and no MSTR exclusion phrase occurs, so MSTR is
reported. -/
theorem C2_alias_veto_witness :
    txt "MSTR" ∈ extract_tickers [txt "MSTR"]
      [(txt "MSTR", [txt "mstr", txt "microstrategy"])]
      (txt "MicroStrategy bought more bitcoin") :=
  (C2_alias_veto [txt "MSTR"] [(txt "MSTR", [txt "mstr", txt "microstrategy"])]
    (txt "MicroStrategy bought more bitcoin") (txt "MSTR")
    [txt "mstr", txt "microstrategy"] (by decide) (by decide)).mpr (by decide)

/-- C8: for a watch-list ticker with no alias entry, `extract_tickers` reports the
ticker exactly when the text contains the bare symbol as a case-insensitive
substring; the hypothesis `pyUpper ticker = ticker` holds for every watch-list
ticker because the constructor upper-cases them (`src/main.py` line 23).  The right
side mentions no aliases: the bare symbol is the only form matched. -/
theorem C8_bare_fallback (watch : List Text) (table : List (Text × List Text))
    (text ticker : Text)
    (hw : ticker ∈ watch) (hu : pyUpper ticker = ticker)
    (ht : lookupT table ticker = none) :
    ticker ∈ extract_tickers watch table text ↔ pyLower ticker <:+: pyLower text := by
  rw [extract_tickers, List.mem_filter]
  simp only [hw, true_and, ht, substr_eq_true_iff]
  exact upper_contained_iff ticker text hu

/-- C8 (witness): TSLA, outside the alias table, matches "buy tsla now"
case-insensitively. -/
theorem C8_bare_fallback_witness :
    txt "TSLA" ∈ extract_tickers [txt "TSLA"] [] (txt "buy tsla now") :=
  (C8_bare_fallback [txt "TSLA"] [] (txt "buy tsla now") (txt "TSLA")
    (by decide) (by decide) rfl).mpr (by decide)

/-- C10: for a watch-list ticker with no alias entry, membership in the extraction
result is equivalent to the bare upper-cased substring test alone — the right side
makes no reference to `false_positive_filters`, so the fallback path never consults
the disambiguation rules.  The witness instantiates the advertised input: OPEN
absent from the table and a text containing its exclusion phrase "openai". -/
theorem C10_fallback_skips_validation (watch : List Text)
    (table : List (Text × List Text)) (text ticker : Text)
    (hw : ticker ∈ watch) (ht : lookupT table ticker = none) :
    ticker ∈ extract_tickers watch table text ↔ ticker <:+: pyUpper text := by
  rw [extract_tickers, List.mem_filter]
  simp only [hw, true_and, ht, substr_eq_true_iff]

/-- C10 (witness): with OPEN absent from the alias table, the text
"OpenAI announced a new model" — which contains OPEN's exclusion phrase "openai" —
still gets OPEN reported as mentioned. -/
theorem C10_witness :
    txt "OPEN" ∈ extract_tickers [txt "OPEN"] [] (txt "OpenAI announced a new model") ∧
    txt "openai" ∈ exclude_phrases_of (txt "OPEN") ∧
    txt "openai" <:+: pyLower (txt "OpenAI announced a new model") :=
  ⟨(C10_fallback_skips_validation [txt "OPEN"] [] (txt "OpenAI announced a new model")
      (txt "OPEN") (by decide) rfl).mpr (by decide),
    by decide, by decide⟩

lemma classify_score_zero : classify_score 0 = "Neutral" := by
  norm_num [classify_score]

lemma analyse_neutral_substituted (s : Scorer) (text : Text) :
    analyse_sentiment (neutral_substituted s) text = analyse_sentiment s text := by
  unfold analyse_sentiment neutral_substituted
  cases h : s (text.take 512) with
  | ok q => simp [h]
  | error e => simp [h, classify_score_zero]

lemma process_item_substituted (s : Scorer) (watch : List Text)
    (table : List (Text × List Text)) (it : RawItem) :
    process_item (neutral_substituted s) watch table it = process_item s watch table it := by
  simp only [process_item]
  rw [analyse_neutral_substituted]

/-- C4: when the scorer raises on (the truncation of) a text, `analyse_sentiment`
returns `("Neutral", 0)` instead of propagating — `analyse_sentiment` and
`fetch_and_analyse` are total, so no item can abort the batch — and the whole batch,
hence the overall summary, is exactly what it would be had every failing call
returned score 0: the other items' contributions are untouched. -/
theorem C4_neutral_on_failure (s : Scorer) (text : Text) (e : String)
    (h : s (text.take 512) = Except.error e) :
    analyse_sentiment s text = ("Neutral", 0) ∧
    ∀ (watch : List Text) (table : List (Text × List Text)) (items : List RawItem),
      fetch_and_analyse s watch table items
        = fetch_and_analyse (neutral_substituted s) watch table items ∧
      overall_summary (fetch_and_analyse s watch table items)
        = overall_summary (fetch_and_analyse (neutral_substituted s) watch table items) := by
  constructor
  · unfold analyse_sentiment
    rw [h]
  · intro watch table items
    have hb : fetch_and_analyse s watch table items
        = fetch_and_analyse (neutral_substituted s) watch table items := by
      unfold fetch_and_analyse
      have hf : process_item (neutral_substituted s) watch table
          = process_item s watch table :=
        funext (process_item_substituted s watch table)
      rw [hf]
    exact ⟨hb, by rw [hb]⟩

/-- C4 (witness): a scorer that always raises yields the substituted pair on a
concrete text. -/
theorem C4_witness :
    analyse_sentiment scorer_down (txt "Apple posts record iPhone sales") = ("Neutral", 0) :=
  (C4_neutral_on_failure scorer_down (txt "Apple posts record iPhone sales")
    "scorer unavailable" rfl).1

/-- C5 (counterexample): with the scorer entirely unavailable (every call raises),
the run does not fail: the batch over two concrete items completes with every
article carrying the substituted `("Neutral", 0)`, and a normal report summary with
label "⚪ Neutral" is produced — there is no distinct failure outcome, refuting the
claim that total scorer failure is propagated to the caller. -/
theorem C5_counterexample :
    (fetch_and_analyse scorer_down watchEx [] [itemApple, itemTesla]).map
        (fun a => (a.sentiment, a.score))
      = [("Neutral", 0), ("Neutral", 0)] ∧
    (overall_summary (fetch_and_analyse scorer_down watchEx [] [itemApple, itemTesla])).label
      = "⚪ Neutral" ∧
    (overall_summary (fetch_and_analyse scorer_down watchEx [] [itemApple, itemTesla])).avg
      = 0 := by
  refine ⟨?_, ?_, ?_⟩
  · norm_num [fetch_and_analyse, process_item, analyse_sentiment, scorer_down]
  · norm_num [overall_summary, avg_of, fetch_and_analyse, process_item,
      analyse_sentiment, scorer_down]
  · norm_num [overall_summary, avg_of, fetch_and_analyse, process_item,
      analyse_sentiment, scorer_down]

/-- C5 (amended): if the scorer fails on every item, the run still completes
normally — every article of the batch carries the substituted `("Neutral", 0.0)`
and a non-empty batch is summarised with the ordinary "⚪ Neutral" label; no
failure outcome is surfaced to the caller (`analyse_sentiment` absorbs each
exception and `run_daily_scan` has no failure path). -/
theorem C5_amended (s : Scorer) (hs : ∀ t, ∃ e, s t = Except.error e)
    (watch : List Text) (table : List (Text × List Text)) (items : List RawItem) :
    (fetch_and_analyse s watch table items).map (fun a => (a.sentiment, a.score))
      = items.map (fun _ => ("Neutral", (0 : ℚ))) ∧
    (items ≠ [] →
      (overall_summary (fetch_and_analyse s watch table items)).label = "⚪ Neutral") := by
  have hone : ∀ it : RawItem,
      analyse_sentiment s (it.title ++ txt " " ++ it.summary) = ("Neutral", 0) := by
    intro it
    obtain ⟨e, he⟩ := hs ((it.title ++ txt " " ++ it.summary).take 512)
    unfold analyse_sentiment
    rw [he]
  constructor
  · unfold fetch_and_analyse
    rw [List.map_map]
    induction items with
    | nil => rfl
    | cons it its ih =>
        simp only [List.map_cons, ih, Function.comp, process_item, hone it]
  · intro hne
    have hscore : ∀ it : RawItem, (process_item s watch table it).score = 0 := by
      intro it
      simp only [process_item]
      rw [hone it]
    have hsum : ((fetch_and_analyse s watch table items).map Article.score).sum = 0 := by
      apply List.sum_eq_zero
      intro x hx
      rw [List.mem_map] at hx
      obtain ⟨a, ha, rfl⟩ := hx
      rw [fetch_and_analyse, List.mem_map] at ha
      obtain ⟨it, _, rfl⟩ := ha
      exact hscore it
    have havg : avg_of (fetch_and_analyse s watch table items) = 0 := by
      unfold avg_of
      rw [hsum]
      simp
    have hempty : (fetch_and_analyse s watch table items).isEmpty = false := by
      simp [fetch_and_analyse, List.isEmpty_iff, hne]
    rw [overall_summary]
    simp only [hempty, Bool.false_eq_true, if_false, havg]
    norm_num

/-- C5 (witness for the amended theorem), at the concrete all-failing scorer and a
one-item batch. -/
theorem C5_amended_witness :
    (fetch_and_analyse scorer_down watchEx [] [itemApple]).map
        (fun a => (a.sentiment, a.score))
      = [itemApple].map (fun _ => ("Neutral", (0 : ℚ))) ∧
    ([itemApple] ≠ ([] : List RawItem) →
      (overall_summary (fetch_and_analyse scorer_down watchEx [] [itemApple])).label
        = "⚪ Neutral") :=
  C5_amended scorer_down (fun _ => ⟨"scorer unavailable", rfl⟩) watchEx [] [itemApple]

/-- C3: the per-ticker mapping returned by `fetch_and_analyse_articles` omits
zero-mention tickers entirely.  On the concrete run over `watchEx = [AAPL, TSLA]`
with one article mentioning only AAPL, the returned mapping has no key for TSLA
(lookup yields `none`, not an empty/NO_DATA entry) while AAPL's entry is present —
contradicting the claim and the function's own docstring example, which shows
`'TSLA': []` present in the returned dict. -/
theorem C3_missing_ticker_key :
    txt "TSLA" ∈ watchEx ∧
    (fetch_and_analyse scorer_const watchEx [] [itemApple]).map Article.tickers
      = [[txt "AAPL"]] ∧
    ticker_articles (fetch_and_analyse scorer_const watchEx [] [itemApple]) (txt "TSLA")
      = none ∧
    (ticker_articles (fetch_and_analyse scorer_const watchEx [] [itemApple])
        (txt "AAPL")).map (List.map Article.title)
      = some [txt "Apple AAPL surges"] := by
  refine ⟨by decide, by decide, by decide, by decide⟩
